import Mathlib

/-!
Verification of the data-profiling and chart-binning pipeline of the
DataQuery AI Assistant repository. The definitions below are a shallow
embedding of the relevant parts of src/src/utils/openai.ts and
src/src/App.tsx: finite JS numbers are modelled as exact rationals,
records as insertion-ordered association lists, and the JS-specific
behaviours (division by zero producing NaN, object key ordering,
truthiness, stringification) are made explicit.
-/

namespace DataQuery

attribute [local semireducible] Rat.mul Rat.inv Rat.add Rat.sub Rat.ofScientific

/-- JS primitive value as it occurs in a parsed spreadsheet record. Finite
numbers are modelled as exact rationals; the model has no NaN or Infinity
literal, since parsed spreadsheet cells never hold them. -/
inductive Value where
  | num (q : ℚ)
  | str (s : String)
  | bool (b : Bool)
  | null
  | undef
deriving DecidableEq, Repr

/-- A record is a string-keyed JS object in insertion order. -/
abbrev Record := List (String × Value)

/-- Reading item[column]: the first binding of the key, or undefined when the
key is absent. -/
def recordGet (r : Record) (k : String) : Value :=
  match r.find? (fun p => p.1 == k) with
  | some p => p.2
  | none => Value.undef

/-- Decimal digit character. -/
def digitChar (n : ℕ) : Char := Char.ofNat (48 + n)

/-- Decimal digits of a natural number, most significant first. The first
argument is fuel and is always passed as a value larger than the number of
digits. -/
def natToDigits : ℕ → ℕ → List Char
  | 0, _ => []
  | fuel + 1, n => if n < 10 then [digitChar n] else natToDigits fuel (n / 10) ++ [digitChar (n % 10)]

def natToString (n : ℕ) : String := String.mk (natToDigits (n + 1) n)

/-- Digits of m, padded with leading zeros to strictly more than k digits, so
that a decimal point can be placed k digits from the right. -/
def decDigitsPadded (m k : ℕ) : List Char :=
  let ds := natToDigits (m + 1) m
  if ds.length ≤ k then List.replicate (k + 1 - ds.length) (digitChar 0) ++ ds else ds

/-- Model of JS String(number) on the exact rationals of the model: an
integer prints as its decimal digits, and a non-integer with a terminating
decimal expansion prints that expansion (every IEEE double has one, so the
fraction fallback is unreachable for values that originate in JS data). -/
def decString (q : ℚ) : String :=
  let sgn : List Char := if q < 0 then ['-'] else []
  let a := |q|
  if a.den = 1 then String.mk (sgn ++ natToDigits (a.num.toNat + 1) a.num.toNat)
  else
    match (List.range 40).find? (fun k => (a * (10 : ℚ) ^ k).den = 1) with
    | some k =>
      let ds := decDigitsPadded (a * (10 : ℚ) ^ k).num.toNat k
      String.mk (sgn ++ ds.take (ds.length - k) ++ ['.'] ++ ds.drop (ds.length - k))
    | none => String.mk sgn ++ natToString a.num.toNat ++ "/" ++ natToString a.den

/-- Model of JS toFixed(2): round to the nearest hundredth with ties going to
the larger value, then print with exactly two digits after the point. -/
def toFixed2 (q : ℚ) : String :=
  let n : ℤ := ⌊q * 100 + 1 / 2⌋
  let sgn : List Char := if n < 0 then ['-'] else []
  let ds := decDigitsPadded n.natAbs 2
  String.mk (sgn ++ ds.take (ds.length - 2) ++ ['.'] ++ ds.drop (ds.length - 2))

/-- Model of JS String(value) on primitive values. -/
def jsString : Value → String
  | Value.num q => decString q
  | Value.str s => s
  | Value.bool b => if b then "true" else "false"
  | Value.null => "null"
  | Value.undef => "undefined"

/-- JS truthiness of a primitive value. -/
def truthy : Value → Bool
  | Value.num q => !(q == 0)
  | Value.str s => !(s == "")
  | Value.bool b => b
  | Value.null => false
  | Value.undef => false

/-- Nullish means null or undefined, the values matched by a != comparison
against both null and undefined and by the ?? operator. -/
def nullish : Value → Bool
  | Value.null => true
  | Value.undef => true
  | _ => false

def digitsToNat (cs : List Char) : ℕ := cs.foldl (fun n c => n * 10 + (c.toNat - 48)) 0

def isJsSpace (c : Char) : Bool :=
  c == ' ' || c == Char.ofNat 9 || c == Char.ofNat 10 || c == Char.ofNat 13 ||
    c == Char.ofNat 11 || c == Char.ofNat 12

def trimChars (cs : List Char) : List Char :=
  ((cs.dropWhile isJsSpace).reverse.dropWhile isJsSpace).reverse

/-- Model of JS String.prototype.trim restricted to ASCII whitespace. -/
def jsTrim (s : String) : String := String.mk (trimChars s.data)

/-- Model of JS String.prototype.toLowerCase on ASCII text. -/
def jsToLower (s : String) : String := String.mk (s.data.map Char.toLower)

/-- Model of JS String.prototype.startsWith. -/
def strStartsWith (s pre : String) : Bool := pre.data.isPrefixOf s.data

/-- Model of JS Number(string) on the plain decimal subset: optional sign and
digits with an optional decimal point. Exponent, hexadecimal and Infinity
spellings are treated as NaN (none); a blank string converts to 0. -/
def parseNumString (s : String) : Option ℚ :=
  let cs := trimChars s.data
  if cs.isEmpty then some 0
  else
    let (sgn, cs1) : ℚ × List Char :=
      match cs with
      | '-' :: rest => (-1, rest)
      | '+' :: rest => (1, rest)
      | _ => (1, cs)
    let ip := cs1.takeWhile Char.isDigit
    let rest := cs1.dropWhile Char.isDigit
    match rest with
    | [] => if ip.isEmpty then none else some (sgn * (digitsToNat ip : ℚ))
    | '.' :: fr =>
      if fr.all Char.isDigit && !(ip.isEmpty && fr.isEmpty) then
        some (sgn * ((digitsToNat ip : ℚ) + (digitsToNat fr : ℚ) / (10 : ℚ) ^ fr.length))
      else none
    | _ => none

/-- Model of JS Number(value) on primitive values; none stands for NaN. -/
def jsToNumberOpt : Value → Option ℚ
  | Value.num q => some q
  | Value.str s => parseNumString s
  | Value.bool b => some (if b then 1 else 0)
  | Value.null => some 0
  | Value.undef => none

/-- Model of the JS global isNaN, which coerces its argument to a number. -/
def jsIsNaN (v : Value) : Bool := (jsToNumberOpt v).isNone

/-- Numeric coercion for values that already passed an isNaN filter; the
default is never reached on those values. -/
def jsToNumber (v : Value) : ℚ := (jsToNumberOpt v).getD 0

/-- A chart point, the element type of a chart series. The value field is a
count in every series the pipeline builds. -/
structure ChartPoint where
  name : String
  value : ℕ
deriving DecidableEq, Repr

/-- data.map(item => item[column]). -/
def colValues (data : List Record) (column : String) : List Value :=
  data.map (fun item => recordGet item column)

/-- Size of the uniqueValues Set of processDataForChart: distinct raw column
values after skipping null and undefined (Set identity is SameValueZero,
which coincides with equality on the modelled values). -/
def chartUniqueCount (data : List Record) (column : String) : ℕ :=
  (((colValues data column).filter (fun v => !(nullish v))).dedup).length

/-- The values array of the numeric branch: column values with null and
NaN-coercing entries filtered out (undefined is NaN under coercion). -/
def chartValues (data : List Record) (column : String) : List Value :=
  (colValues data column).filter (fun v => !(v == Value.null) && !(jsIsNaN v))

def chartNums (data : List Record) (column : String) : List ℚ :=
  (chartValues data column).map jsToNumber

/-- Math.min over a spread array; the empty case cannot arise on the numeric
branch (the first column value is a finite number there) and gets a harmless
default instead of Infinity. -/
def listMin : List ℚ → ℚ
  | [] => 0
  | x :: xs => xs.foldl min x

def listMax : List ℚ → ℚ
  | [] => 0
  | x :: xs => xs.foldl max x

def chartMinV (data : List Record) (column : String) : ℚ := listMin (chartNums data column)

def chartMaxV (data : List Record) (column : String) : ℚ := listMax (chartNums data column)

/-- binCount = Math.min(10, uniqueValues.size). -/
def chartBinCount (data : List Record) (column : String) : ℕ :=
  min 10 (chartUniqueCount data column)

/-- binSize = range / binCount. -/
def chartBinSize (data : List Record) (column : String) : ℚ :=
  (chartMaxV data column - chartMinV data column) / (chartBinCount data column : ℚ)

/-- Math.min(Math.floor((value - min) / binSize), binCount - 1) with the JS
division semantics made explicit: when binSize is zero the quotient is NaN
(for value = min) or an infinity, and an index that is NaN, negative or past
the end of the array increments no array slot, which none records. -/
def jsBinIndex (v minV binSize : ℚ) (binCount : ℕ) : Option ℕ :=
  if binSize = 0 then
    if v = minV then none
    else if minV < v then
      if (binCount : ℤ) - 1 < 0 then none else some (binCount - 1)
    else none
  else
    let j : ℤ := min ⌊(v - minV) / binSize⌋ ((binCount : ℤ) - 1)
    if j < 0 then none else some j.toNat

/-- bins[binIndex]++ with JS array semantics: a valid index updates the slot,
anything else (NaN, negative, out of range) touches no slot of the array. -/
def bumpBin (bins : List ℕ) (i : Option ℕ) : List ℕ :=
  match i with
  | some k => bins.set k (bins.getD k 0 + 1)
  | none => bins

def chartBins (data : List Record) (column : String) : List ℕ :=
  (chartNums data column).foldl
    (fun bins v =>
      bumpBin bins (jsBinIndex v (chartMinV data column) (chartBinSize data column)
        (chartBinCount data column)))
    (List.replicate (chartBinCount data column) 0)

/-- The numeric branch of processDataForChart: one point per bin with the
range label built by toFixed(2). The empty-values case is unreachable from
the numeric branch and returns the empty series. -/
def numericSeries (data : List Record) (column : String) : List ChartPoint :=
  if (chartNums data column).isEmpty then []
  else
    (List.range (chartBinCount data column)).map (fun (i : ℕ) =>
      { name := toFixed2 (chartMinV data column + (i : ℚ) * chartBinSize data column) ++ " - " ++
          toFixed2 (chartMinV data column + ((i : ℚ) + 1) * chartBinSize data column),
        value := (chartBins data column).getD i 0 })

/-- Key of the categorical reduce step: String(curr[column] ?? the literal
string undefined). -/
def jsCatKey : Value → String
  | Value.null => "undefined"
  | Value.undef => "undefined"
  | v => jsString v

/-- acc[key] = (acc[key] or 0) + 1 on a JS object: the existing binding for
the key is bumped in place, a new key is appended at the end. -/
def upsert : List (String × ℕ) → String → List (String × ℕ)
  | [], k => [(k, 1)]
  | p :: ps, k => if p.1 == k then (p.1, p.2 + 1) :: ps else p :: upsert ps k

/-- acc[key] or 0 on a JS object. -/
def countOf : List (String × ℕ) → String → ℕ
  | [], _ => 0
  | p :: ps, k => if p.1 == k then p.2 else countOf ps k

/-- A key counts as an array index for JS property ordering when it is the
canonical decimal form of an integer below 2^32 - 1. -/
def isArrayIndexKey (s : String) : Bool :=
  let cs := s.data
  !cs.isEmpty && cs.all Char.isDigit && (cs == [digitChar 0] || !(cs.headD (digitChar 0) == digitChar 0)) &&
    digitsToNat cs < 2 ^ 32 - 1

def insertAscByKey (p : String × ℕ) : List (String × ℕ) → List (String × ℕ)
  | [] => [p]
  | q :: qs =>
    if digitsToNat p.1.data ≤ digitsToNat q.1.data then p :: q :: qs else q :: insertAscByKey p qs

def sortAscByKey : List (String × ℕ) → List (String × ℕ)
  | [] => []
  | p :: ps => insertAscByKey p (sortAscByKey ps)

/-- Own-property order of a JS object, as observed by Object.entries: array
index keys first in ascending numeric order, then the remaining keys in
insertion order. -/
def jsObjectEntries (l : List (String × ℕ)) : List (String × ℕ) :=
  sortAscByKey (l.filter (fun p => isArrayIndexKey p.1)) ++
    l.filter (fun p => !(isArrayIndexKey p.1))

def insertDescStable (p : ChartPoint) : List ChartPoint → List ChartPoint
  | [] => [p]
  | q :: qs => if q.value ≤ p.value then p :: q :: qs else q :: insertDescStable p qs

/-- Stable descending sort by the value field: the model of
Array.prototype.sort with comparator (a, b) => b.value - a.value, which the
engines targeted by this code run as a stable sort. -/
def sortDescStable : List ChartPoint → List ChartPoint
  | [] => []
  | p :: ps => insertDescStable p (sortDescStable ps)

/-- The categorical branch of processDataForChart: count occurrences of each
stringified value over all records, order the object entries, sort by count
descending and keep the top ten. -/
def categoricalSeries (data : List Record) (column : String) : List ChartPoint :=
  let grouped := ((colValues data column).map jsCatKey).foldl upsert []
  (sortDescStable ((jsObjectEntries grouped).map (fun p => ChartPoint.mk p.1 p.2))).take 10

def isNumberValue : Value → Bool
  | Value.num _ => true
  | _ => false

/-- processDataForChart from src/src/utils/openai.ts lines 243 to 287 (an
identical copy sits in src/src/App.tsx lines 1320 to 1364): empty data or an
empty column name give an empty series; a numeric first value selects the
equal-width binning branch, anything else the categorical branch. -/
def processDataForChart (data : List Record) (column : String) : List ChartPoint :=
  match data with
  | [] => []
  | first :: _ =>
    if column == "" then []
    else if isNumberValue (recordGet first column) then numericSeries data column
    else categoricalSeries data column

/-- String(row[selectedColumn] || the literal string Unknown): any falsy
value, including null, undefined, 0, the empty string and false, becomes the
Unknown label. -/
def backfillKey (v : Value) : String := jsString (if truthy v then v else Value.str "Unknown")

/-- The chart backfill of analyzeDataWithAI in src/src/utils/openai.ts lines
112 to 127: when the parsed reply wants a chart but carries no chartData,
count rows per key in a Map (insertion order, one entry per distinct key)
and emit every entry, with no sorting and no truncation. -/
def backfillChartData (data : List Record) (selectedColumn : String) : List ChartPoint :=
  (((colValues data selectedColumn).map backfillKey).foldl upsert []).map
    (fun p => ChartPoint.mk p.1 p.2)

/-- Per-column profile of the schemaInfo step of analyzeDataWithAI in
src/src/utils/openai.ts lines 35 to 48: the Set collects the raw values with
no stringification, and totalCount is the length of the whole dataset. -/
structure ProfileO where
  uniqueCount : ℕ
  totalCount : ℕ
deriving DecidableEq, Repr

def profileOpenai (data : List Record) (colName : String) : ProfileO :=
  { uniqueCount := (((colValues data colName).filter (fun v => !(nullish v))).dedup).length,
    totalCount := data.length }

/-- Per-column profile of the schemaInfo step of analyzeDataWithAI in
src/src/App.tsx lines 1189 to 1208: non-null values are stringified before
being collected and counted, and totalCount is the length of the whole
dataset. -/
structure ProfileA where
  uniqueCount : ℕ
  totalCount : ℕ
  valueCounts : List (String × ℕ)
deriving DecidableEq, Repr

def profileApp (data : List Record) (colName : String) : ProfileA :=
  let strs := ((colValues data colName).filter (fun v => !(nullish v))).map jsString
  { uniqueCount := strs.dedup.length,
    totalCount := data.length,
    valueCounts := strs.foldl upsert [] }

/-- The fixed greeting token list shared by both greeting gates. -/
def greetings : List String := ["hi", "hello", "hey", "greetings"]

/-- The canned assistant reply of both greeting gates. -/
def greetingMessage : String :=
  "Hello! I\x27m your data analysis assistant. You can ask me questions about your data, and I\x27ll help you analyze it. For example, try asking about specific columns, averages, trends, or distributions in your data."

/-- greetings.includes(query.toLowerCase().trim()). -/
def isGreeting (query : String) : Bool := greetings.contains (jsTrim (jsToLower query))

/-- The unified result object handed to the UI. -/
structure AnalysisResult where
  answer : String
  sqlQuery : String
  needsChart : Bool
  chartType : Option String
  chartDataColumn : String
  chartData : Option (List ChartPoint)
deriving DecidableEq, Repr

inductive QueryAction where
  | respondGreeting (r : AnalysisResult)
  | callExternal
deriving DecidableEq, Repr

/-- The greeting gate of handleQuerySubmit in src/src/App.tsx lines 295 to
312: a greeting resolves immediately with the canned result, anything else
proceeds to the external call. -/
def dispatchQuery (query : String) : QueryAction :=
  if isGreeting query then
    QueryAction.respondGreeting
      { answer := greetingMessage, sqlQuery := "", needsChart := false,
        chartType := none, chartDataColumn := "", chartData := none }
  else QueryAction.callExternal

/-- The canned result of the greeting gate inside analyzeDataWithAI in
src/src/App.tsx lines 1175 to 1186. -/
def aiGreetingResult : AnalysisResult :=
  { answer := greetingMessage, sqlQuery := "", needsChart := false,
    chartType := none, chartDataColumn := "", chartData := some [] }

def analyzeGreetingGate (query : String) : Option AnalysisResult :=
  if isGreeting query then some aiGreetingResult else none

def charQuote : Char := Char.ofNat 34

def charBackslash : Char := Char.ofNat 92

def lbraceChar : Char := Char.ofNat 123

def rbraceChar : Char := Char.ofNat 125

/-- JSON value, the result type of the JSON.parse model. -/
inductive Json where
  | null
  | bool (b : Bool)
  | num (q : ℚ)
  | str (s : String)
  | arr (xs : List Json)
  | obj (fields : List (String × Json))

def skipWs (cs : List Char) : List Char := cs.dropWhile isJsSpace

def unescapeChar (c : Char) : Option Char :=
  if c == charQuote then some charQuote
  else if c == charBackslash then some charBackslash
  else if c == '/' then some '/'
  else if c == 'n' then some (Char.ofNat 10)
  else if c == 't' then some (Char.ofNat 9)
  else if c == 'r' then some (Char.ofNat 13)
  else if c == 'b' then some (Char.ofNat 8)
  else if c == 'f' then some (Char.ofNat 12)
  else none

/-- Body of a JSON string after the opening quote; the unicode escape form is
left out of the model. -/
def parseStringChars : List Char → Option (List Char × List Char)
  | [] => none
  | c :: rest =>
    if c == charQuote then some ([], rest)
    else if c == charBackslash then
      match rest with
      | [] => none
      | e :: rest2 =>
        match unescapeChar e with
        | none => none
        | some c2 =>
          match parseStringChars rest2 with
          | none => none
          | some (cs, r) => some (c2 :: cs, r)
    else
      match parseStringChars rest with
      | none => none
      | some (cs, r) => some (c :: cs, r)

/-- JSON number on the plain decimal subset; the exponent form is left out of
the model. -/
def parseJsonNumber (cs : List Char) : Option (ℚ × List Char) :=
  let (sgn, cs1) : ℚ × List Char :=
    match cs with
    | '-' :: rest => (-1, rest)
    | _ => (1, cs)
  let ip := cs1.takeWhile Char.isDigit
  let rest := cs1.dropWhile Char.isDigit
  if ip.isEmpty then none
  else
    match rest with
    | '.' :: rest2 =>
      let fr := rest2.takeWhile Char.isDigit
      let rest3 := rest2.dropWhile Char.isDigit
      if fr.isEmpty then none
      else some (sgn * ((digitsToNat ip : ℚ) + (digitsToNat fr : ℚ) / (10 : ℚ) ^ fr.length), rest3)
    | _ => some (sgn * (digitsToNat ip : ℚ), rest)

mutual

/-- Recursive-descent model of JSON.parse; the fuel argument strictly bounds
the nesting depth and is instantiated generously from the input length. -/
def parseJsonValue : ℕ → List Char → Option (Json × List Char)
  | 0, _ => none
  | fuel + 1, cs =>
    match skipWs cs with
    | [] => none
    | c :: rest =>
      if c == charQuote then
        match parseStringChars rest with
        | none => none
        | some (s, r) => some (Json.str (String.mk s), r)
      else if c == lbraceChar then parseJsonObjectBody fuel rest
      else if c == '[' then parseJsonArrayBody fuel rest
      else if c == 'n' then
        match rest with
        | 'u' :: 'l' :: 'l' :: r => some (Json.null, r)
        | _ => none
      else if c == 't' then
        match rest with
        | 'r' :: 'u' :: 'e' :: r => some (Json.bool true, r)
        | _ => none
      else if c == 'f' then
        match rest with
        | 'a' :: 'l' :: 's' :: 'e' :: r => some (Json.bool false, r)
        | _ => none
      else
        match parseJsonNumber (c :: rest) with
        | none => none
        | some (q, r) => some (Json.num q, r)

def parseJsonObjectBody : ℕ → List Char → Option (Json × List Char)
  | 0, _ => none
  | fuel + 1, cs =>
    match skipWs cs with
    | [] => none
    | c :: rest =>
      if c == rbraceChar then some (Json.obj [], rest)
      else
        match parseJsonMembers fuel (c :: rest) with
        | none => none
        | some (fs, r) => some (Json.obj fs, r)

def parseJsonMembers : ℕ → List Char → Option (List (String × Json) × List Char)
  | 0, _ => none
  | fuel + 1, cs =>
    match skipWs cs with
    | [] => none
    | c :: rest =>
      if c == charQuote then
        match parseStringChars rest with
        | none => none
        | some (k, r1) =>
          match skipWs r1 with
          | ':' :: r2 =>
            match parseJsonValue fuel r2 with
            | none => none
            | some (v, r3) =>
              match skipWs r3 with
              | ',' :: r4 =>
                match parseJsonMembers fuel r4 with
                | none => none
                | some (fs, r5) => some ((String.mk k, v) :: fs, r5)
              | c3 :: r4 => if c3 == rbraceChar then some ([(String.mk k, v)], r4) else none
              | [] => none
          | _ => none
      else none

def parseJsonArrayBody : ℕ → List Char → Option (Json × List Char)
  | 0, _ => none
  | fuel + 1, cs =>
    match skipWs cs with
    | [] => none
    | c :: rest =>
      if c == ']' then some (Json.arr [], rest)
      else
        match parseJsonItems fuel (c :: rest) with
        | none => none
        | some (xs, r) => some (Json.arr xs, r)

def parseJsonItems : ℕ → List Char → Option (List Json × List Char)
  | 0, _ => none
  | fuel + 1, cs =>
    match parseJsonValue fuel cs with
    | none => none
    | some (v, r) =>
      match skipWs r with
      | ',' :: r2 =>
        match parseJsonItems fuel r2 with
        | none => none
        | some (xs, r3) => some (v :: xs, r3)
      | c :: r2 => if c == ']' then some ([v], r2) else none
      | [] => none

end

/-- Model of JSON.parse on a whole string: none models a thrown SyntaxError. -/
def jsonParse (s : String) : Option Json :=
  match parseJsonValue (2 * s.data.length + 4) s.data with
  | none => none
  | some (j, rest) => if (skipWs rest).isEmpty then some j else none

def getField (j : Json) (k : String) : Option Json :=
  match j with
  | Json.obj fields =>
    match fields.find? (fun p => p.1 == k) with
    | some p => some p.2
    | none => none
  | _ => none

def jsonTruthy (j : Json) : Bool :=
  match j with
  | Json.null => false
  | Json.bool b => b
  | Json.num q => !(q == 0)
  | Json.str s => !(s == "")
  | Json.arr _ => true
  | Json.obj _ => true

/-- json.response is truthy; a missing field reads as undefined, which is
falsy. -/
def jsonFieldTruthy (j : Json) (k : String) : Bool :=
  match getField j k with
  | some v => jsonTruthy v
  | none => false

/-- String coercion applied by Array.prototype.join to the response chunks.
Every reachable chunk is a string; the remaining constructors get the JS
spellings, with nested arrays approximated. -/
def jsonJoinStr (j : Json) : String :=
  match j with
  | Json.str s => s
  | Json.num q => decString q
  | Json.bool b => if b then "true" else "false"
  | Json.null => ""
  | Json.arr _ => ""
  | Json.obj _ => "[object Object]"

/-- Model of matching the greedy brace regex of the source: the block from
the first opening brace to the last closing brace, when the first strictly
precedes the last. -/
def extractBraces (s : String) : Option String :=
  let cs := s.data
  match cs.findIdx? (fun c => c == lbraceChar) with
  | none => none
  | some i =>
    match cs.reverse.findIdx? (fun c => c == rbraceChar) with
    | none => none
    | some rj =>
      let j := cs.length - 1 - rj
      if i < j then some (String.mk ((cs.drop i).take (j - i + 1))) else none

/-- text.split with the newline separator. -/
def splitOnChar (sep : Char) : List Char → List (List Char)
  | [] => [[]]
  | c :: rest =>
    let r := splitOnChar sep rest
    if c == sep then [] :: r
    else
      match r with
      | [] => [[c]]
      | g :: gs => (c :: g) :: gs

def jsSplitLines (s : String) : List String := (splitOnChar (Char.ofNat 10) s.data).map String.mk

/-- The shape of the parsed reply object the orchestrator reads. -/
structure LLMData where
  answer : String
  sqlQuery : String
  visualization : Option String
deriving DecidableEq, Repr

/-- The fallback object built when the combined reply holds no brace block. -/
def fallbackNoJson : LLMData :=
  { answer := "I apologize, but I couldn\x27t analyze the text properly. Could you please rephrase your question?",
    sqlQuery := "", visualization := none }

/-- The fallback object built by the catch branch when any JSON.parse call
throws. -/
def fallbackParseError : LLMData :=
  { answer := "I apologize, but I encountered an error processing the response. Could you please try again?",
    sqlQuery := "", visualization := none }

inductive ParseOutcome where
  | parsed (j : Json)
  | noJson
  | parseFailed

/-- The response parsing step of handleQuerySubmit in src/src/App.tsx lines
359 to 388: split the raw reply into lines, JSON-parse every non-blank line,
keep the chunks whose response field is truthy, concatenate those fields,
extract the brace block and parse it. A missing block is the noJson outcome;
a parse failure anywhere is caught by the surrounding try and becomes the
parseFailed outcome. -/
def parseLLMText (text : String) : ParseOutcome :=
  let lines := (jsSplitLines text).filter (fun l => !((jsTrim l) == ""))
  match lines.mapM jsonParse with
  | none => ParseOutcome.parseFailed
  | some jsons =>
    let withResp := jsons.filter (fun j => jsonFieldTruthy j "response")
    let combined := String.join (withResp.map (fun j =>
      match getField j "response" with
      | some v => jsonJoinStr v
      | none => ""))
    match extractBraces combined with
    | none => ParseOutcome.noJson
    | some blk =>
      match jsonParse blk with
      | none => ParseOutcome.parseFailed
      | some j => ParseOutcome.parsed j

/-- The llmData object the orchestrator ends up with on each non-success
outcome; a successful parse carries the parsed object instead. -/
def llmFallback : ParseOutcome → Option LLMData
  | ParseOutcome.parsed _ => none
  | ParseOutcome.noJson => some fallbackNoJson
  | ParseOutcome.parseFailed => some fallbackParseError

/-- The worked dataset of the specification: four records with one numeric
age column. -/
def ageData : List Record :=
  [[("age", Value.num 20)], [("age", Value.num 25)], [("age", Value.num 30)], [("age", Value.num 90)]]

/-- A column whose two records hold the same finite number. -/
def constColData : List Record := [[("x", Value.num 5)], [("x", Value.num 5)]]

/-- Eleven records with eleven distinct string values in one column. -/
def elevenDistinct : List Record :=
  [[("x", Value.str "a")], [("x", Value.str "b")], [("x", Value.str "c")], [("x", Value.str "d")],
   [("x", Value.str "e")], [("x", Value.str "f")], [("x", Value.str "g")], [("x", Value.str "h")],
   [("x", Value.str "i")], [("x", Value.str "j")], [("x", Value.str "k")]]

/-- A categorical column with one null record and one string record. -/
def nullCatData : List Record := [[("x", Value.null)], [("x", Value.str "a")]]

/-- The categorical tie example of the specification: values a, a, b, c, c. -/
def abcData : List Record :=
  [[("x", Value.str "a")], [("x", Value.str "a")], [("x", Value.str "b")],
   [("x", Value.str "c")], [("x", Value.str "c")]]

/-- A column holding a null, the number 1 and the string 1. -/
def mixedNullData : List Record := [[("x", Value.null)], [("x", Value.num 1)], [("x", Value.str "1")]]

/-- One record that has a key a but no key b. -/
def singleRecA : List Record := [[("a", Value.num 1)]]

/-- A column whose first record holds null while every later value is
numeric. -/
def mixedFirstNull : List Record :=
  [[("x", Value.null)], [("x", Value.num 25)], [("x", Value.num 30)]]

/-- A plain-prose external reply holding no JSON at all. -/
def proseReply : String := "Sorry, I cannot help with that."

theorem foldl_min_le (xs : List ℚ) (a : ℚ) : xs.foldl min a ≤ a := by
  induction xs generalizing a with
  | nil => exact le_refl a
  | cons x xs ih => exact le_trans (ih (min a x)) (min_le_left a x)

theorem foldl_min_le_mem (xs : List ℚ) (a v : ℚ) (hv : v ∈ xs) : xs.foldl min a ≤ v := by
  induction xs generalizing a with
  | nil => cases hv
  | cons x xs ih =>
    rcases List.mem_cons.mp hv with h | h
    · subst h
      exact le_trans (foldl_min_le xs (min a v)) (min_le_right a v)
    · exact ih (min a x) h

theorem listMin_le (l : List ℚ) (v : ℚ) (hv : v ∈ l) : listMin l ≤ v := by
  match l with
  | [] => cases hv
  | x :: xs =>
    rcases List.mem_cons.mp hv with h | h
    · subst h
      exact foldl_min_le xs v
    · exact foldl_min_le_mem xs x v h

theorem chartValues_not_nullish (data : List Record) (col : String) (v : Value)
    (hv : v ∈ chartValues data col) : nullish v = false := by
  have h := (List.mem_filter.mp hv).2
  cases v with
  | null => simp at h
  | undef => simp [jsIsNaN, jsToNumberOpt] at h
  | num q => rfl
  | str s => rfl
  | bool b => rfl

theorem chartUniqueCount_pos (data : List Record) (col : String)
    (h : chartNums data col ≠ []) : 1 ≤ chartUniqueCount data col := by
  obtain ⟨v, hv⟩ : ∃ v, v ∈ chartValues data col := by
    cases hcv : chartValues data col with
    | nil => exact absurd (by simp [chartNums, hcv]) h
    | cons x xs => exact ⟨x, by simp [hcv]⟩
  have h1 : v ∈ (colValues data col).filter (fun v => !(nullish v)) :=
    List.mem_filter.mpr ⟨(List.mem_filter.mp hv).1, by simp [chartValues_not_nullish data col v hv]⟩
  have h2 : v ∈ ((colValues data col).filter (fun v => !(nullish v))).dedup := List.mem_dedup.mpr h1
  have h3 := List.length_pos.mpr (List.ne_nil_of_mem h2)
  simpa [chartUniqueCount] using h3

theorem chartNums_ne_nil (data : List Record) (col : String)
    (h : chartMinV data col < chartMaxV data col) : chartNums data col ≠ [] := by
  intro hn
  rw [chartMinV, chartMaxV, hn] at h
  simp [listMin, listMax] at h

theorem chartBinCount_pos (data : List Record) (col : String)
    (h : chartNums data col ≠ []) : 1 ≤ chartBinCount data col := by
  have h1 := chartUniqueCount_pos data col h
  rw [chartBinCount]
  omega

theorem chartBinSize_pos (data : List Record) (col : String)
    (hrange : chartMinV data col < chartMaxV data col) : 0 < chartBinSize data col := by
  have hbc := chartBinCount_pos data col (chartNums_ne_nil data col hrange)
  have hbcQ : (0 : ℚ) < (chartBinCount data col : ℚ) := by
    exact_mod_cast Nat.lt_of_lt_of_le Nat.zero_lt_one hbc
  exact div_pos (sub_pos.mpr hrange) hbcQ

/-- C2: on every numeric column with a strictly positive range, the bin
formula Math.min(Math.floor((value - min) / binSize), binCount - 1) assigns
every extracted finite value exactly one bin index between 0 and
binCount - 1, and the maximum value always receives the last index
binCount - 1. -/
theorem numeric_binning_spec (data : List Record) (column : String)
    (hrange : chartMinV data column < chartMaxV data column) :
    1 ≤ chartBinCount data column ∧
    (∀ v : ℚ, v ∈ chartNums data column → ∃ i : ℕ,
      jsBinIndex v (chartMinV data column) (chartBinSize data column)
        (chartBinCount data column) = some i ∧
      i ≤ chartBinCount data column - 1) ∧
    jsBinIndex (chartMaxV data column) (chartMinV data column) (chartBinSize data column)
      (chartBinCount data column) = some (chartBinCount data column - 1) := by
  have hbc := chartBinCount_pos data column (chartNums_ne_nil data column hrange)
  have hbs := chartBinSize_pos data column hrange
  refine ⟨hbc, ?_, ?_⟩
  · intro v hv
    have hvmin : chartMinV data column ≤ v := listMin_le (chartNums data column) v hv
    have hfl : 0 ≤ ⌊(v - chartMinV data column) / chartBinSize data column⌋ :=
      Int.floor_nonneg.mpr (div_nonneg (sub_nonneg.mpr hvmin) hbs.le)
    have hlast : (0 : ℤ) ≤ (chartBinCount data column : ℤ) - 1 := by
      have := hbc
      omega
    refine ⟨(min ⌊(v - chartMinV data column) / chartBinSize data column⌋
      ((chartBinCount data column : ℤ) - 1)).toNat, ?_, ?_⟩
    · rw [jsBinIndex, if_neg (ne_of_gt hbs)]
      rw [if_neg (not_lt.mpr (le_min hfl hlast))]
    · have hmr : min ⌊(v - chartMinV data column) / chartBinSize data column⌋
        ((chartBinCount data column : ℤ) - 1) ≤ (chartBinCount data column : ℤ) - 1 :=
        min_le_right _ _
      omega
  · rw [jsBinIndex, if_neg (ne_of_gt hbs)]
    have hdiv : (chartMaxV data column - chartMinV data column) / chartBinSize data column =
        (chartBinCount data column : ℚ) := by
      have hrne : chartMaxV data column - chartMinV data column ≠ 0 :=
        ne_of_gt (sub_pos.mpr hrange)
      rw [chartBinSize, div_div_eq_mul_div, mul_comm, mul_div_assoc, div_self hrne, mul_one]
    rw [hdiv, Int.floor_natCast]
    have hmin : min (chartBinCount data column : ℤ) ((chartBinCount data column : ℤ) - 1) =
        (chartBinCount data column : ℤ) - 1 := min_eq_right (by omega)
    rw [hmin, if_neg (by omega)]
    congr 1
    omega

theorem upsert_map_fst (l : List (String × ℕ)) (k : String) :
    (upsert l k).map Prod.fst =
      if k ∈ l.map Prod.fst then l.map Prod.fst else l.map Prod.fst ++ [k] := by
  induction l with
  | nil => simp [upsert]
  | cons p ps ih =>
    by_cases h : p.1 = k
    · simp [upsert, h]
    · have hb : (p.1 == k) = false := beq_eq_false_iff_ne.mpr h
      simp only [upsert, hb, Bool.false_eq_true, if_false, List.map_cons, ih]
      by_cases hmem : k ∈ ps.map Prod.fst
      · simp [hmem, Ne.symm h]
      · simp [hmem, Ne.symm h]

theorem countOf_upsert (l : List (String × ℕ)) (k k2 : String) :
    countOf (upsert l k) k2 = countOf l k2 + if k2 = k then 1 else 0 := by
  induction l with
  | nil =>
    by_cases h : k2 = k
    · subst h
      simp [upsert, countOf]
    · have hb : (k == k2) = false := beq_eq_false_iff_ne.mpr (fun he => h he.symm)
      simp [upsert, countOf, hb, h]
  | cons p ps ih =>
    by_cases h : p.1 = k
    · by_cases h2 : p.1 = k2
      · have hk : k2 = k := h2.symm.trans h
        subst hk
        simp [upsert, countOf, beq_iff_eq.mpr h]
      · have hne : ¬(k2 = k) := fun hk => h2 (h.trans hk.symm)
        have hb : (p.1 == k) = true := beq_iff_eq.mpr h
        have hb2 : (p.1 == k2) = false := beq_eq_false_iff_ne.mpr h2
        simp [upsert, countOf, hb, hb2, hne]
    · have hb : (p.1 == k) = false := beq_eq_false_iff_ne.mpr h
      by_cases h2 : p.1 = k2
      · have hne : ¬(k2 = k) := fun hk => h (h2.trans hk)
        have hb2 : (p.1 == k2) = true := beq_iff_eq.mpr h2
        simp [upsert, countOf, hb, hb2, hne]
      · have hb2 : (p.1 == k2) = false := beq_eq_false_iff_ne.mpr h2
        simp [upsert, countOf, hb, hb2, ih]

theorem countOf_foldl_upsert (ks : List String) (l : List (String × ℕ)) (k : String) :
    countOf (ks.foldl upsert l) k = countOf l k + ks.count k := by
  induction ks generalizing l with
  | nil => simp
  | cons k1 ks ih =>
    rw [List.foldl_cons, ih, countOf_upsert, List.count_cons]
    by_cases h : k = k1
    · simp [h]
      omega
    · have hb : (k1 == k) = false := beq_eq_false_iff_ne.mpr (Ne.symm h)
      simp [h, hb]

theorem nodup_upsert (l : List (String × ℕ)) (k : String)
    (h : (l.map Prod.fst).Nodup) : ((upsert l k).map Prod.fst).Nodup := by
  rw [upsert_map_fst]
  by_cases hmem : k ∈ l.map Prod.fst
  · simpa [hmem] using h
  · simp only [hmem, if_false]
    exact List.Nodup.append h (List.nodup_singleton k) (by simpa using hmem)

theorem nodup_foldl_upsert (ks : List String) (l : List (String × ℕ))
    (h : (l.map Prod.fst).Nodup) : ((ks.foldl upsert l).map Prod.fst).Nodup := by
  induction ks generalizing l with
  | nil => exact h
  | cons k1 ks ih => exact ih (upsert l k1) (nodup_upsert l k1 h)

theorem mem_map_fst_upsert (l : List (String × ℕ)) (k k2 : String) :
    k2 ∈ (upsert l k).map Prod.fst ↔ k2 ∈ l.map Prod.fst ∨ k2 = k := by
  rw [upsert_map_fst]
  by_cases hmem : k ∈ l.map Prod.fst
  · simp only [hmem, if_true]
    constructor
    · exact fun h => Or.inl h
    · rintro (h | h)
      · exact h
      · exact h ▸ hmem
  · simp [hmem]

theorem mem_map_fst_foldl_upsert (ks : List String) (l : List (String × ℕ)) (k : String) :
    k ∈ (ks.foldl upsert l).map Prod.fst ↔ k ∈ l.map Prod.fst ∨ k ∈ ks := by
  induction ks generalizing l with
  | nil => simp
  | cons k1 ks ih =>
    rw [List.foldl_cons, ih, mem_map_fst_upsert]
    simp [List.mem_cons, or_assoc]

theorem value_eq_countOf_of_mem (l : List (String × ℕ)) (p : String × ℕ)
    (hn : (l.map Prod.fst).Nodup) (hp : p ∈ l) : p.2 = countOf l p.1 := by
  induction l with
  | nil => cases hp
  | cons q qs ih =>
    rcases List.mem_cons.mp hp with h | h
    · subst h
      simp [countOf]
    · have hq : q.1 ≠ p.1 := by
        intro he
        have : p.1 ∈ qs.map Prod.fst := List.mem_map.mpr ⟨p, h, rfl⟩
        rw [List.map_cons, List.nodup_cons] at hn
        exact hn.1 (he ▸ this)
      have hb : (q.1 == p.1) = false := beq_eq_false_iff_ne.mpr hq
      rw [List.map_cons, List.nodup_cons] at hn
      simp [countOf, hb, ih hn.2 h]

theorem grouped_value_eq_count (ks : List String) (p : String × ℕ)
    (hp : p ∈ ks.foldl upsert []) : p.2 = ks.count p.1 := by
  have hn : ((ks.foldl upsert []).map Prod.fst).Nodup :=
    nodup_foldl_upsert ks [] (by simp)
  have h1 := value_eq_countOf_of_mem (ks.foldl upsert []) p hn hp
  rw [h1, countOf_foldl_upsert]
  simp [countOf]

theorem mem_insertDescStable (p x : ChartPoint) (l : List ChartPoint) :
    x ∈ insertDescStable p l ↔ x = p ∨ x ∈ l := by
  induction l with
  | nil => simp [insertDescStable]
  | cons q qs ih =>
    by_cases h : q.value ≤ p.value
    · simp [insertDescStable, h, List.mem_cons]
    · simp only [insertDescStable, h, if_false, List.mem_cons, ih]
      tauto

theorem mem_sortDescStable (x : ChartPoint) (l : List ChartPoint) :
    x ∈ sortDescStable l ↔ x ∈ l := by
  induction l with
  | nil => simp [sortDescStable]
  | cons p ps ih =>
    simp [sortDescStable, mem_insertDescStable, ih, List.mem_cons]

theorem pairwise_insertDescStable (p : ChartPoint) (l : List ChartPoint)
    (hl : l.Pairwise (fun a b => b.value ≤ a.value)) :
    (insertDescStable p l).Pairwise (fun a b => b.value ≤ a.value) := by
  induction l with
  | nil => simp [insertDescStable]
  | cons q qs ih =>
    rw [List.pairwise_cons] at hl
    by_cases h : q.value ≤ p.value
    · rw [insertDescStable, if_pos h]
      refine List.pairwise_cons.mpr ⟨?_, List.pairwise_cons.mpr hl⟩
      intro x hx
      rcases List.mem_cons.mp hx with hxq | hxqs
      · exact hxq ▸ h
      · exact le_trans (hl.1 x hxqs) h
    · rw [insertDescStable, if_neg h]
      refine List.pairwise_cons.mpr ⟨?_, ih hl.2⟩
      intro x hx
      rcases (mem_insertDescStable p x qs).mp hx with hxp | hxqs
      · exact hxp ▸ (le_of_not_le h)
      · exact hl.1 x hxqs

theorem pairwise_sortDescStable (l : List ChartPoint) :
    (sortDescStable l).Pairwise (fun a b => b.value ≤ a.value) := by
  induction l with
  | nil => simp [sortDescStable]
  | cons p ps ih => exact pairwise_insertDescStable p (sortDescStable ps) ih

theorem mem_insertAscByKey (p x : String × ℕ) (l : List (String × ℕ)) :
    x ∈ insertAscByKey p l ↔ x = p ∨ x ∈ l := by
  induction l with
  | nil => simp [insertAscByKey]
  | cons q qs ih =>
    by_cases h : digitsToNat p.1.data ≤ digitsToNat q.1.data
    · simp [insertAscByKey, h, List.mem_cons]
    · simp only [insertAscByKey, h, if_false, List.mem_cons, ih]
      tauto

theorem mem_sortAscByKey (x : String × ℕ) (l : List (String × ℕ)) :
    x ∈ sortAscByKey l ↔ x ∈ l := by
  induction l with
  | nil => simp [sortAscByKey]
  | cons p ps ih =>
    simp [sortAscByKey, mem_insertAscByKey, ih, List.mem_cons]

theorem mem_jsObjectEntries (x : String × ℕ) (l : List (String × ℕ)) :
    x ∈ jsObjectEntries l ↔ x ∈ l := by
  rw [jsObjectEntries, List.mem_append, mem_sortAscByKey]
  constructor
  · rintro (h | h)
    · exact (List.mem_filter.mp h).1
    · exact (List.mem_filter.mp h).1
  · intro h
    by_cases hi : isArrayIndexKey x.1
    · exact Or.inl (List.mem_filter.mpr ⟨h, hi⟩)
    · exact Or.inr (List.mem_filter.mpr ⟨h, by simp [hi]⟩)

theorem numericSeries_length_le (data : List Record) (col : String) :
    (numericSeries data col).length ≤ 10 := by
  rw [numericSeries]
  by_cases h : (chartNums data col).isEmpty
  · simp [h]
  · simp [h, chartBinCount]

theorem categoricalSeries_length_le (data : List Record) (col : String) :
    (categoricalSeries data col).length ≤ 10 := by
  rw [categoricalSeries]
  simp [List.length_take]

theorem processDataForChart_length_le (data : List Record) (col : String) :
    (processDataForChart data col).length ≤ 10 := by
  match data with
  | [] => simp [processDataForChart]
  | first :: rest =>
    rw [processDataForChart]
    by_cases h : col == ""
    · simp [h]
    · by_cases h2 : isNumberValue (recordGet first col)
      · simp [h, h2, numericSeries_length_le]
      · simp [h, h2, categoricalSeries_length_le]

theorem backfillChartData_names (data : List Record) (col : String) :
    ((backfillChartData data col).map ChartPoint.name).Nodup ∧
    (∀ k : String, k ∈ (backfillChartData data col).map ChartPoint.name ↔
      k ∈ (colValues data col).map backfillKey) := by
  have hmm : (backfillChartData data col).map ChartPoint.name =
      (((colValues data col).map backfillKey).foldl upsert []).map Prod.fst := by
    rw [backfillChartData, List.map_map]
    rfl
  constructor
  · rw [hmm]
    exact nodup_foldl_upsert _ [] (by simp)
  · intro k
    rw [hmm, mem_map_fst_foldl_upsert]
    simp

theorem categorical_value_counts (data : List Record) (col : String) (p : ChartPoint)
    (hp : p ∈ categoricalSeries data col) :
    p.value = ((colValues data col).map jsCatKey).count p.name := by
  rw [categoricalSeries] at hp
  have hp2 := List.take_subset 10 _ hp
  have hp3 := (mem_sortDescStable _ _).mp hp2
  obtain ⟨pr, hpr, hmk⟩ := List.mem_map.mp hp3
  have hpr2 := (mem_jsObjectEntries pr _).mp hpr
  have hval := grouped_value_eq_count _ pr hpr2
  rw [← hmk]
  simpa using hval

theorem categoricalSeries_sorted (data : List Record) (col : String) :
    (categoricalSeries data col).Pairwise (fun a b => b.value ≤ a.value) := by
  rw [categoricalSeries]
  exact List.Pairwise.sublist (List.take_sublist 10 _) (pairwise_sortDescStable _)

theorem foldl_upsert_all_eq (ks : List String) (k0 : String) (j : ℕ)
    (h : ∀ k ∈ ks, k = k0) : ks.foldl upsert [(k0, j)] = [(k0, j + ks.length)] := by
  induction ks generalizing j with
  | nil => simp
  | cons k1 ks ih =>
    have hk1 : k1 = k0 := h k1 (by simp)
    subst hk1
    rw [List.foldl_cons]
    have hup : upsert [(k1, j)] k1 = [(k1, j + 1)] := by simp [upsert]
    rw [hup, ih (j + 1) (fun k hk => h k (List.mem_cons_of_mem _ hk))]
    have : j + 1 + ks.length = j + (ks.length + 1) := by omega
    simp [this]

theorem categoricalSeries_all_undef (data : List Record) (col : String) (hne : data ≠ [])
    (hall : ∀ r ∈ data, recordGet r col = Value.undef) :
    categoricalSeries data col = [⟨"undefined", data.length⟩] := by
  have hkeys : ∀ k ∈ (colValues data col).map jsCatKey, k = "undefined" := by
    intro k hk
    obtain ⟨v, hv, hkv⟩ := List.mem_map.mp hk
    obtain ⟨r, hr, hrv⟩ := List.mem_map.mp hv
    rw [← hkv, ← hrv, hall r hr]
    rfl
  obtain ⟨r0, rest, hdata⟩ : ∃ r0 rest, data = r0 :: rest := by
    cases data with
    | nil => exact absurd rfl hne
    | cons a l => exact ⟨a, l, rfl⟩
  subst hdata
  have hcv : (colValues (r0 :: rest) col).map jsCatKey =
      "undefined" :: (colValues rest col).map jsCatKey := by
    rw [colValues, List.map_cons, List.map_cons, hall r0 (by simp)]
    rfl
  have hrest : ∀ k ∈ (colValues rest col).map jsCatKey, k = "undefined" := by
    intro k hk
    exact hkeys k (by rw [hcv]; exact List.mem_cons_of_mem _ hk)
  have hgrouped : ((colValues (r0 :: rest) col).map jsCatKey).foldl upsert [] =
      [("undefined", (r0 :: rest).length)] := by
    rw [hcv, List.foldl_cons]
    have hup : upsert [] "undefined" = [("undefined", 1)] := by simp [upsert]
    rw [hup, foldl_upsert_all_eq _ "undefined" 1 hrest]
    simp [colValues]
    omega
  rw [categoricalSeries, hgrouped]
  have hidx : isArrayIndexKey "undefined" = false := rfl
  simp [jsObjectEntries, hidx, List.filter, sortAscByKey, sortDescStable, insertDescStable]

/-- C1: the claim states that the division by binSize is guarded so that a
zero-range numeric column yields exactly one bin containing all the values.
The code has no such guard: on the two-record column of identical fives the
quotient (value - min) / binSize is 0 / 0, the bin index is NaN, bins with a
NaN index update no array slot, and the single emitted bin carries count 0
instead of 2. This evaluation documents the behaviour at the failing
input. -/
theorem zero_range_single_bin_eval :
    processDataForChart constColData "x" = [{ name := "5.00 - 5.00", value := 0 }] ∧
    processDataForChart constColData "x" ≠ [{ name := "5.00 - 5.00", value := 2 }] := by
  exact ⟨by decide, by decide⟩

/-- C2 witness: the range hypothesis holds on the concrete age dataset and
the conclusion follows by applying the theorem there. -/
theorem numeric_binning_spec_wit :
    (chartMinV ageData "age" < chartMaxV ageData "age") ∧
    (1 ≤ chartBinCount ageData "age" ∧
      (∀ v : ℚ, v ∈ chartNums ageData "age" → ∃ i : ℕ,
        jsBinIndex v (chartMinV ageData "age") (chartBinSize ageData "age")
          (chartBinCount ageData "age") = some i ∧
        i ≤ chartBinCount ageData "age" - 1) ∧
      jsBinIndex (chartMaxV ageData "age") (chartMinV ageData "age") (chartBinSize ageData "age")
        (chartBinCount ageData "age") = some (chartBinCount ageData "age" - 1)) :=
  ⟨by decide, numeric_binning_spec ageData "age" (by decide)⟩

/-- C3 counterexample: the chart backfill of analyzeDataWithAI truncates
nothing, so eleven distinct column values produce a series of eleven points,
refuting the claim that every produced series has at most ten points. -/
theorem backfill_exceeds_ten : 10 < (backfillChartData elevenDistinct "x").length := by
  decide

/-- C3 amended: every series built by processDataForChart has at most ten
points, while the backfill aggregation emits exactly one point per distinct
key of the column, with no ten-point truncation. -/
theorem series_bounded_spec :
    (∀ (data : List Record) (col : String), (processDataForChart data col).length ≤ 10) ∧
    (∀ (data : List Record) (col : String),
      ((backfillChartData data col).map ChartPoint.name).Nodup ∧
      (∀ k : String, k ∈ (backfillChartData data col).map ChartPoint.name ↔
        k ∈ (colValues data col).map backfillKey)) :=
  ⟨processDataForChart_length_le, backfillChartData_names⟩

/-- C4 counterexample: on the age dataset the bin counts are not the claimed
2, 0, 0, 2. -/
theorem age_histogram_counts_cex :
    (processDataForChart ageData "age").map ChartPoint.value ≠ [2, 0, 0, 2] := by
  decide

/-- C4 amended: on the age dataset the pipeline computes min 20, max 90,
binCount 4 and binSize 17.5 as claimed, but the four bins hold the counts
3, 0, 0, 1: the three values 20, 25 and 30 all fall below 37.5, and only the
clamped maximum 90 lands in the last bin. -/
theorem age_histogram_eval :
    chartMinV ageData "age" = 20 ∧ chartMaxV ageData "age" = 90 ∧
    chartBinCount ageData "age" = 4 ∧ chartBinSize ageData "age" = 35 / 2 ∧
    processDataForChart ageData "age" =
      [⟨"20.00 - 37.50", 3⟩, ⟨"37.50 - 55.00", 0⟩, ⟨"55.00 - 72.50", 0⟩, ⟨"72.50 - 90.00", 1⟩] :=
  ⟨by decide, by decide, by decide, by decide, by decide⟩

/-- C5 counterexample: a null column value is counted as a data value under
the literal label undefined, so the categorical series of a null record and
one a record has two points, refuting the claim that null values are not
counted. -/
theorem categorical_null_counted_cex :
    processDataForChart nullCatData "x" = [⟨"undefined", 1⟩, ⟨"a", 1⟩] ∧
    processDataForChart nullCatData "x" ≠ [⟨"a", 1⟩] := by
  exact ⟨by decide, by decide⟩

/-- C5 amended: the categorical branch stringifies every record including
null and missing values, which land under the literal label undefined; each
emitted point carries the exact occurrence count of its label, the series is
sorted by descending count and holds at most ten points, and on the tie
example a, a, b, c, c the first-encountered label a precedes c. -/
theorem categorical_series_spec :
    (∀ (data : List Record) (col : String) (p : ChartPoint), p ∈ categoricalSeries data col →
      p.value = ((colValues data col).map jsCatKey).count p.name) ∧
    (∀ (data : List Record) (col : String),
      (categoricalSeries data col).Pairwise (fun a b => b.value ≤ a.value)) ∧
    (∀ (data : List Record) (col : String), (categoricalSeries data col).length ≤ 10) ∧
    jsCatKey Value.null = "undefined" ∧ jsCatKey Value.undef = "undefined" ∧
    processDataForChart abcData "x" = [⟨"a", 2⟩, ⟨"c", 2⟩, ⟨"b", 1⟩] :=
  ⟨categorical_value_counts, categoricalSeries_sorted, categoricalSeries_length_le, rfl, rfl,
    by decide⟩

/-- C5 witness: the count characterization applied at the concrete tie
example. -/
theorem categorical_series_spec_wit :
    (ChartPoint.mk "a" 2 ∈ categoricalSeries abcData "x") ∧
    (ChartPoint.mk "a" 2).value = ((colValues abcData "x").map jsCatKey).count "a" :=
  ⟨by decide, categorical_series_spec.1 abcData "x" (ChartPoint.mk "a" 2) (by decide)⟩

/-- C6 counterexample: on a column holding a null, the number 1 and the
string 1, totalCount is 3 rather than the claimed 2 (null records are not
excluded from it), and the openai.ts profile counts the raw values so its
uniqueCount is 2 rather than the claimed collapsed 1; only the App.tsx
profile collapses the two values into one stringified bucket. -/
theorem profile_null_total_cex :
    (profileApp mixedNullData "x").totalCount = 3 ∧
    (profileApp mixedNullData "x").totalCount ≠ 2 ∧
    (profileOpenai mixedNullData "x").uniqueCount = 2 ∧
    (profileOpenai mixedNullData "x").uniqueCount ≠ 1 ∧
    (profileApp mixedNullData "x").uniqueCount = 1 ∧
    (profileApp mixedNullData "x").valueCounts = [("1", 2)] :=
  ⟨by decide, by decide, by decide, by decide, by decide, by decide⟩

/-- C6 amended: in the App.tsx profile, null and undefined values count
toward neither uniqueCount nor valueCounts (appending a null-valued record
changes neither, while totalCount grows by one, since totalCount is the full
record count), and counted values are stringified, so a record holding the
number q and a record holding its string spelling are indistinguishable to
the profile. -/
theorem profile_spec (data : List Record) (col : String) (r : Record)
    (hnull : nullish (recordGet r col) = true) :
    (profileApp data col).totalCount = data.length ∧
    (profileApp (data ++ [r]) col).uniqueCount = (profileApp data col).uniqueCount ∧
    (profileApp (data ++ [r]) col).valueCounts = (profileApp data col).valueCounts ∧
    (profileApp (data ++ [r]) col).totalCount = (profileApp data col).totalCount + 1 ∧
    (∀ (r1 r2 : Record) (q : ℚ), recordGet r1 col = Value.num q →
      recordGet r2 col = Value.str (decString q) →
      profileApp (data ++ [r1]) col = profileApp (data ++ [r2]) col) := by
  have hfilterapp : ∀ (r' : Record),
      (colValues (data ++ [r']) col).filter (fun v => !(nullish v)) =
      (colValues data col).filter (fun v => !(nullish v)) ++
        (if nullish (recordGet r' col) then [] else [recordGet r' col]) := by
    intro r'
    rw [colValues, List.map_append, List.filter_append]
    congr 1
    by_cases h : nullish (recordGet r' col)
    · simp [colValues, List.filter, h]
    · simp [colValues, List.filter, h]
  have h0 : (colValues (data ++ [r]) col).filter (fun v => !(nullish v)) =
      (colValues data col).filter (fun v => !(nullish v)) := by
    rw [hfilterapp r, hnull]
    simp
  refine ⟨rfl, ?_, ?_, ?_, ?_⟩
  · simp [profileApp, h0]
  · simp [profileApp, h0]
  · simp [profileApp]
  · intro r1 r2 q h1 h2
    have e1 : (colValues (data ++ [r1]) col).filter (fun v => !(nullish v)) =
        (colValues data col).filter (fun v => !(nullish v)) ++ [Value.num q] := by
      rw [hfilterapp r1, h1]
      simp [nullish]
    have e2 : (colValues (data ++ [r2]) col).filter (fun v => !(nullish v)) =
        (colValues data col).filter (fun v => !(nullish v)) ++ [Value.str (decString q)] := by
      rw [hfilterapp r2, h2]
      simp [nullish]
    have estr : ((colValues (data ++ [r1]) col).filter (fun v => !(nullish v))).map jsString =
        ((colValues (data ++ [r2]) col).filter (fun v => !(nullish v))).map jsString := by
      rw [e1, e2, List.map_append, List.map_append]
      simp [jsString]
    simp [profileApp, estr, List.length_append]

/-- C6 witness: the null-invariance applied at a concrete profile. -/
theorem profile_spec_wit :
    nullish (recordGet [("x", Value.null)] "x") = true ∧
    ((profileApp [[("x", Value.num 1)]] "x").totalCount = [[("x", Value.num 1)]].length ∧
      (profileApp ([[("x", Value.num 1)]] ++ [[("x", Value.null)]]) "x").uniqueCount =
        (profileApp [[("x", Value.num 1)]] "x").uniqueCount ∧
      (profileApp ([[("x", Value.num 1)]] ++ [[("x", Value.null)]]) "x").valueCounts =
        (profileApp [[("x", Value.num 1)]] "x").valueCounts ∧
      (profileApp ([[("x", Value.num 1)]] ++ [[("x", Value.null)]]) "x").totalCount =
        (profileApp [[("x", Value.num 1)]] "x").totalCount + 1 ∧
      (∀ (r1 r2 : Record) (q : ℚ), recordGet r1 "x" = Value.num q →
        recordGet r2 "x" = Value.str (decString q) →
        profileApp ([[("x", Value.num 1)]] ++ [r1]) "x" =
          profileApp ([[("x", Value.num 1)]] ++ [r2]) "x")) :=
  ⟨by decide, profile_spec [[("x", Value.num 1)]] "x" [("x", Value.null)] (by decide)⟩

/-- C7 counterexample: a column name absent from a nonempty dataset does not
yield an empty series; every record reads as undefined and is counted under
the literal label undefined. -/
theorem absent_column_cex :
    processDataForChart singleRecA "b" = [{ name := "undefined", value := 1 }] ∧
    processDataForChart singleRecA "b" ≠ [] := by
  exact ⟨by decide, by decide⟩

/-- C7 amended: the function is total (never throws); an empty dataset or an
empty column name yields the empty series, but a column absent from every
record of a nonempty dataset yields the one-point categorical series whose
undefined label counts every record. -/
theorem no_data_empty_series (data : List Record) (col : String) :
    (data = [] → processDataForChart data col = []) ∧
    (col = "" → processDataForChart data col = []) ∧
    (data ≠ [] → col ≠ "" → (∀ r ∈ data, recordGet r col = Value.undef) →
      processDataForChart data col = [{ name := "undefined", value := data.length }]) := by
  refine ⟨?_, ?_, ?_⟩
  · intro h
    subst h
    rfl
  · intro h
    subst h
    match data with
    | [] => rfl
    | first :: rest => simp [processDataForChart]
  · intro hne hcol hall
    obtain ⟨r0, rest, hdata⟩ : ∃ r0 rest, data = r0 :: rest := by
      cases data with
      | nil => exact absurd rfl hne
      | cons a l => exact ⟨a, l, rfl⟩
    subst hdata
    rw [processDataForChart]
    have hb : (col == "") = false := beq_eq_false_iff_ne.mpr hcol
    rw [if_neg (by simp [hb])]
    have hnum : isNumberValue (recordGet r0 col) = false := by
      rw [hall r0 (by simp)]
      rfl
    rw [if_neg (by simp [hnum])]
    exact categoricalSeries_all_undef (r0 :: rest) col (by simp) hall

/-- C7 witness: the absent-column case applied at the concrete one-record
dataset. -/
theorem no_data_empty_series_wit :
    (singleRecA ≠ [] ∧ "b" ≠ "" ∧ (∀ r ∈ singleRecA, recordGet r "b" = Value.undef)) ∧
    processDataForChart singleRecA "b" = [{ name := "undefined", value := singleRecA.length }] :=
  ⟨⟨by decide, by decide, by decide⟩,
    (no_data_empty_series singleRecA "b").2.2 (by decide) (by decide) (by decide)⟩

/-- C8: whenever the response parsing pipeline of handleQuerySubmit cannot
produce a parsed object — no brace block in the combined reply, or a failing
JSON parse anywhere — it resolves to one of the two synthesized fallback
objects, whose answer is a non-empty apology, whose sqlQuery is empty and
which requests no chart; no failure escapes the parsing boundary. -/
theorem orchestrator_parse_fallback (text : String)
    (hfail : ∀ j : Json, parseLLMText text ≠ ParseOutcome.parsed j) :
    ∃ d : LLMData, llmFallback (parseLLMText text) = some d ∧
      d.answer ≠ "" ∧ strStartsWith d.answer "I apologize" = true ∧
      d.sqlQuery = "" ∧ d.visualization = none := by
  match h : parseLLMText text with
  | ParseOutcome.parsed j => exact absurd h (hfail j)
  | ParseOutcome.noJson =>
    exact ⟨fallbackNoJson, rfl, by decide, by decide, rfl, rfl⟩
  | ParseOutcome.parseFailed =>
    exact ⟨fallbackParseError, rfl, by decide, by decide, rfl, rfl⟩

/-- C8 witness: a plain-prose reply fails the line parse, and the theorem
applies to it. -/
theorem orchestrator_parse_fallback_wit :
    (∀ j : Json, parseLLMText proseReply ≠ ParseOutcome.parsed j) ∧
    (∃ d : LLMData, llmFallback (parseLLMText proseReply) = some d ∧
      d.answer ≠ "" ∧ strStartsWith d.answer "I apologize" = true ∧
      d.sqlQuery = "" ∧ d.visualization = none) :=
  ⟨fun j h => by
      rw [show parseLLMText proseReply = ParseOutcome.parseFailed from rfl] at h
      exact ParseOutcome.noConfusion h,
    orchestrator_parse_fallback proseReply (fun j h => by
      rw [show parseLLMText proseReply = ParseOutcome.parseFailed from rfl] at h
      exact ParseOutcome.noConfusion h)⟩

/-- C9: any question whose lower-cased, trimmed text is one of the four
greeting tokens short-circuits the orchestrator — it never reaches the
external call and resolves with the canned result, whose sqlQuery is empty,
needsChart is false and chartType is null; the greeting gate inside
analyzeDataWithAI returns the matching canned result as well. -/
theorem greeting_short_circuit (query : String)
    (h : jsTrim (jsToLower query) ∈ greetings) :
    dispatchQuery query ≠ QueryAction.callExternal ∧
    (∃ r : AnalysisResult, dispatchQuery query = QueryAction.respondGreeting r ∧
      r.answer = greetingMessage ∧ r.sqlQuery = "" ∧ r.needsChart = false ∧ r.chartType = none) ∧
    analyzeGreetingGate query = some aiGreetingResult ∧
    aiGreetingResult.answer = greetingMessage ∧ aiGreetingResult.sqlQuery = "" ∧
    aiGreetingResult.needsChart = false ∧ aiGreetingResult.chartType = none := by
  have hg : isGreeting query = true := by
    simp only [greetings, List.mem_cons, List.not_mem_nil, or_false] at h
    rcases h with h | h | h | h <;> simp [isGreeting, greetings, h]
  refine ⟨?_,
    ⟨{ answer := greetingMessage, sqlQuery := "", needsChart := false,
        chartType := none, chartDataColumn := "", chartData := none },
      ?_, rfl, rfl, rfl, rfl⟩,
    ?_, rfl, rfl, rfl, rfl⟩
  · simp [dispatchQuery, hg]
  · rw [dispatchQuery, if_pos hg]
  · rw [analyzeGreetingGate, if_pos hg]

/-- C9 witness: a greeting in mixed case with surrounding whitespace. -/
theorem greeting_short_circuit_wit :
    (jsTrim (jsToLower "  HeLLo  ") ∈ greetings) ∧
    (dispatchQuery "  HeLLo  " ≠ QueryAction.callExternal ∧
      (∃ r : AnalysisResult, dispatchQuery "  HeLLo  " = QueryAction.respondGreeting r ∧
        r.answer = greetingMessage ∧ r.sqlQuery = "" ∧ r.needsChart = false ∧ r.chartType = none) ∧
      analyzeGreetingGate "  HeLLo  " = some aiGreetingResult ∧
      aiGreetingResult.answer = greetingMessage ∧ aiGreetingResult.sqlQuery = "" ∧
      aiGreetingResult.needsChart = false ∧ aiGreetingResult.chartType = none) :=
  ⟨by decide, greeting_short_circuit "  HeLLo  " (by decide)⟩

/-- C10: processDataForChart chooses its branch solely from the runtime type
of the first record value of the column — its signature carries no declared
column type at all — so a dataset whose first value is not a number is
processed categorically even when every later value is numeric, with null
and missing values counted under the literal label undefined; the concrete
evaluation shows the numeric values 25 and 30 turned into category labels
next to the undefined label of the null first record. -/
theorem first_value_type_dispatch :
    (∀ (data : List Record) (col : String) (first : Record) (rest : List Record),
      data = first :: rest → isNumberValue (recordGet first col) = false → col ≠ "" →
      processDataForChart data col = categoricalSeries data col) ∧
    jsCatKey Value.null = "undefined" ∧ jsCatKey Value.undef = "undefined" ∧
    processDataForChart mixedFirstNull "x" = [⟨"25", 1⟩, ⟨"30", 1⟩, ⟨"undefined", 1⟩] := by
  refine ⟨?_, rfl, rfl, by decide⟩
  intro data col first rest hdata hnum hcol
  subst hdata
  rw [processDataForChart]
  rw [if_neg (by simp [beq_eq_false_iff_ne.mpr hcol])]
  rw [if_neg (by simp [hnum])]

/-- C10 witness: the dispatch applied at the dataset whose first record is
null. -/
theorem first_value_type_dispatch_wit :
    (isNumberValue (recordGet [("x", Value.null)] "x") = false ∧ ("x" : String) ≠ "") ∧
    processDataForChart mixedFirstNull "x" = categoricalSeries mixedFirstNull "x" :=
  ⟨⟨by decide, by decide⟩,
    first_value_type_dispatch.1 mixedFirstNull "x" [("x", Value.null)]
      [[("x", Value.num 25)], [("x", Value.num 30)]] rfl (by decide) (by decide)⟩

end DataQuery
